import Mathlib

/-!
Verification of the image alignment and normalization pipeline of the
Confocal-Pro repository (`src/utils/imageProcessing.ts`).

The embedding below translates the numeric core of the source file:

* `computeIntegralImage` / `getRectSum` — the summed-area (integral image)
  table and its four-corner rectangle-sum query;
* `findCoBrightestROI` — the stride-4 exhaustive scan for the brightest
  co-occurring region of interest;
* `channelMax`, `stochasticScale`, `normalizePixels` — the brightness
  normalization loop of `processChannel` (the part after the canvas
  crop/resize);
* `mergePixel` — the per-pixel channel merge rule of `processRow`;
* `processRow` — the pipeline entry point, parametric in the two browser
  canvas primitives it uses (`drawImage` resampling and the
  `Uint8ClampedArray` byte store), which are external collaborators and
  not code of this repository.

Pixel buffers are modelled as total functions from flat byte index to byte
value (the source reads `data[(y*width+x)*4 + c]` on a flat RGBA8 array).
Real-number arithmetic of the source (JS doubles / Float32 table cells) is
embedded as exact rational arithmetic.
-/

/-- A decoded image: width, height and a flat row-major RGBA8 byte buffer,
indexed as `data ((y * width + x) * 4 + c)` exactly as in the source. -/
structure ImageData where
  width : ℕ
  height : ℕ
  data : ℕ → ℕ

/-- The rectangle returned by `findCoBrightestROI`. -/
structure Rect where
  x : ℕ
  y : ℕ
  w : ℕ
  h : ℕ
  deriving DecidableEq

/-- `ProcessingConfig` from `src/types.ts`. -/
structure ProcessingConfig where
  targetWidth : ℕ
  targetHeight : ℕ
  targetIntensity : ℚ
  padding : ℕ
  randomness : ℚ
  clipBottom : ℕ
  columnLabels : List String
  rowLabelFontSize : ℕ
  columnLabelFontSize : ℕ
  fontFamily : String
  showLabels : Bool

/-- The initial config of `App.tsx`, used as a concrete sample input. -/
def defaultConfig : ProcessingConfig :=
  { targetWidth := 494
    targetHeight := 246
    targetIntensity := 200
    padding := 10
    randomness := 1/20
    clipBottom := 25
    columnLabels := ["Channel 1", "Channel 2", "Merge"]
    rowLabelFontSize := 24
    columnLabelFontSize := 24
    fontFamily := "sans-serif"
    showLabels := true }

/-- Luminance of the pixel at `(x, y)`:
`0.299 * data[idx] + 0.587 * data[idx+1] + 0.114 * data[idx+2]` with
`idx = (y * width + x) * 4` (alpha ignored), from `computeIntegralImage`. -/
def lum (data : ℕ → ℕ) (width x y : ℕ) : ℚ :=
  0.299 * (data ((y * width + x) * 4) : ℚ)
    + 0.587 * (data ((y * width + x) * 4 + 1) : ℚ)
    + 0.114 * (data ((y * width + x) * 4 + 2) : ℚ)

/-- The running horizontal sum of row `y` up to and including column `x`
(the `rowSum` accumulator of the `computeIntegralImage` loop). -/
def rowSum (data : ℕ → ℕ) (width y : ℕ) : ℕ → ℚ
  | 0 => lum data width 0 y
  | x + 1 => rowSum data width y x + lum data width (x + 1) y

/-- The table cell at `(x, y)`: the loop stores `rowSum` for `y = 0` and
`rowSum + integral[(y-1)*width + x]` for `y > 0`. -/
def integralEntry (data : ℕ → ℕ) (width x : ℕ) : ℕ → ℚ
  | 0 => rowSum data width 0 x
  | y + 1 => rowSum data width (y + 1) x + integralEntry data width x y

/-- The integral image as a function of the flat index `y * width + x`.
The `height` argument mirrors the source signature; the source only ever
reads indices inside the `width * height` buffer it allocates. -/
def computeIntegralImage (data : ℕ → ℕ) (width height : ℕ) : ℕ → ℚ :=
  fun i => integralEntry data width (i % width) (i / width)

/-- Four-corner inclusion-exclusion query `D - B - C + A` of `getRectSum`,
with a corner treated as `0` when its row or column index would be
negative (the `x > 0` / `y > 0` guards of the source). -/
def getRectSum (integral : ℕ → ℚ) (width x y w h : ℕ) : ℚ :=
  let x2 := x + w - 1
  let y2 := y + h - 1
  let A := if 0 < x ∧ 0 < y then integral ((y - 1) * width + (x - 1)) else 0
  let B := if 0 < y then integral ((y - 1) * width + x2) else 0
  let C := if 0 < x then integral (y2 * width + (x - 1)) else 0
  let D := integral (y2 * width + x2)
  D - B - C + A

/-- Brute-force luminance sum over the rectangle `[x, x+w) x [y, y+h)`. -/
def rectBrute (data : ℕ → ℕ) (width x y w h : ℕ) : ℚ :=
  ∑ j ∈ Finset.range h, ∑ i ∈ Finset.range w, lum data width (x + i) (y + j)

/-- Exclusive double prefix sum of luminance over `[0, a) x [0, b)`. -/
def prefixLum (data : ℕ → ℕ) (width a b : ℕ) : ℚ :=
  ∑ j ∈ Finset.range b, ∑ i ∈ Finset.range a, lum data width i j

theorem rowSum_eq (data : ℕ → ℕ) (width y x : ℕ) :
    rowSum data width y x = ∑ i ∈ Finset.range (x + 1), lum data width i y := by
  induction x with
  | zero => simp [rowSum]
  | succ n ih =>
      rw [rowSum, ih]
      exact (Finset.sum_range_succ _ _).symm

theorem integralEntry_eq (data : ℕ → ℕ) (width x y : ℕ) :
    integralEntry data width x y = prefixLum data width (x + 1) (y + 1) := by
  induction y with
  | zero => simp [integralEntry, prefixLum, rowSum_eq]
  | succ n ih =>
      rw [integralEntry, ih, rowSum_eq]
      unfold prefixLum
      rw [Finset.sum_range_succ
        (fun j => ∑ i ∈ Finset.range (x + 1), lum data width i j) (n + 1)]
      exact add_comm _ _

theorem prefixLum_zero_left (data : ℕ → ℕ) (width b : ℕ) :
    prefixLum data width 0 b = 0 := by
  simp [prefixLum]

theorem prefixLum_zero_right (data : ℕ → ℕ) (width a : ℕ) :
    prefixLum data width a 0 = 0 := by
  simp [prefixLum]

theorem prefixLum_rect (data : ℕ → ℕ) (width x y w h : ℕ) :
    prefixLum data width (x + w) (y + h) - prefixLum data width (x + w) y
      - prefixLum data width x (y + h) + prefixLum data width x y
      = rectBrute data width x y w h := by
  have hsplit : ∀ a b : ℕ,
      prefixLum data width (x + w) (a + b)
        = prefixLum data width (x + w) a
          + (∑ j ∈ Finset.range b, ∑ i ∈ Finset.range x, lum data width i (a + j))
          + (∑ j ∈ Finset.range b, ∑ i ∈ Finset.range w, lum data width (x + i) (a + j)) := by
    intro a b
    unfold prefixLum
    rw [Finset.sum_range_add]
    have inner : ∀ j ∈ Finset.range b,
        (∑ i ∈ Finset.range (x + w), lum data width i (a + j))
          = (∑ i ∈ Finset.range x, lum data width i (a + j))
            + ∑ i ∈ Finset.range w, lum data width (x + i) (a + j) :=
      fun j _ => Finset.sum_range_add _ x w
    rw [Finset.sum_congr rfl inner, Finset.sum_add_distrib, ← add_assoc]
  have hsplitx : prefixLum data width x (y + h)
      = prefixLum data width x y
        + ∑ j ∈ Finset.range h, ∑ i ∈ Finset.range x, lum data width i (y + j) := by
    unfold prefixLum
    rw [Finset.sum_range_add]
  rw [hsplit y h, hsplitx]
  unfold rectBrute
  ring

/-- Decoding the flat index used by `getRectSum` back to coordinates. -/
theorem computeIntegralImage_at (data : ℕ → ℕ) (width height x y : ℕ)
    (hx : x < width) :
    computeIntegralImage data width height (y * width + x)
      = integralEntry data width x y := by
  have hw : 0 < width := lt_of_le_of_lt (Nat.zero_le x) hx
  unfold computeIntegralImage
  have hmod : (y * width + x) % width = x := by
    rw [mul_comm, Nat.mul_add_mod, Nat.mod_eq_of_lt hx]
  have hdiv : (y * width + x) / width = y := by
    rw [mul_comm, Nat.mul_add_div hw, Nat.div_eq_of_lt hx, Nat.add_zero]
  rw [hmod, hdiv]

/-- C3: for any raster and any rectangle with `w >= 1`, `h >= 1` fully
inside it, the four-corner query of `getRectSum` over the table built by
`computeIntegralImage` equals the brute-force per-pixel luminance sum over
that rectangle. -/
theorem integral_rectSum_correct (data : ℕ → ℕ) (width height x y w h : ℕ)
    (hw : 1 ≤ w) (hh : 1 ≤ h) (hxw : x + w ≤ width) (hyh : y + h ≤ height) :
    getRectSum (computeIntegralImage data width height) width x y w h
      = rectBrute data width x y w h := by
  have hx2 : x + w - 1 < width := by omega
  have hx1 : x - 1 < width := by omega
  have hD : computeIntegralImage data width height ((y + h - 1) * width + (x + w - 1))
      = prefixLum data width (x + w) (y + h) := by
    rw [computeIntegralImage_at data width height _ _ hx2, integralEntry_eq]
    congr 1 <;> omega
  have hB : (if 0 < y then
        computeIntegralImage data width height ((y - 1) * width + (x + w - 1)) else 0)
      = prefixLum data width (x + w) y := by
    by_cases hy : 0 < y
    · rw [if_pos hy, computeIntegralImage_at data width height _ _ hx2, integralEntry_eq]
      congr 1 <;> omega
    · rw [if_neg hy]
      have : y = 0 := by omega
      rw [this, prefixLum_zero_right]
  have hC : (if 0 < x then
        computeIntegralImage data width height ((y + h - 1) * width + (x - 1)) else 0)
      = prefixLum data width x (y + h) := by
    by_cases hx : 0 < x
    · rw [if_pos hx, computeIntegralImage_at data width height _ _ hx1, integralEntry_eq]
      congr 1 <;> omega
    · rw [if_neg hx]
      have : x = 0 := by omega
      rw [this, prefixLum_zero_left]
  have hA : (if 0 < x ∧ 0 < y then
        computeIntegralImage data width height ((y - 1) * width + (x - 1)) else 0)
      = prefixLum data width x y := by
    by_cases hxy : 0 < x ∧ 0 < y
    · rw [if_pos hxy, computeIntegralImage_at data width height _ _ hx1, integralEntry_eq]
      congr 1 <;> omega
    · rw [if_neg hxy]
      rcases Nat.eq_zero_or_pos x with hx | hx
      · rw [hx, prefixLum_zero_left]
      · have : y = 0 := by omega
        rw [this, prefixLum_zero_right]
  show computeIntegralImage data width height ((y + h - 1) * width + (x + w - 1))
      - (if 0 < y then
          computeIntegralImage data width height ((y - 1) * width + (x + w - 1)) else 0)
      - (if 0 < x then
          computeIntegralImage data width height ((y + h - 1) * width + (x - 1)) else 0)
      + (if 0 < x ∧ 0 < y then
          computeIntegralImage data width height ((y - 1) * width + (x - 1)) else 0)
      = rectBrute data width x y w h
  rw [hD, hB, hC, hA, prefixLum_rect]

/-- Witness for `integral_rectSum_correct` at a concrete 3x3 raster and
the rectangle `(1,1,2,2)`. -/
theorem integral_rectSum_correct_witness :
    getRectSum (computeIntegralImage (fun i => i % 7) 3 3) 3 1 1 2 2
      = rectBrute (fun i => i % 7) 3 1 1 2 2 :=
  integral_rectSum_correct (fun i => i % 7) 3 3 1 1 2 2
    (by decide) (by decide) (by decide) (by decide)

/-- One iteration of the scan loop in `findCoBrightestROI`: keep the new
position exactly when `total > maxBrightness` (strict comparison, so ties
keep the first position visited). The accumulator is
`(maxBrightness, bestX, bestY)`, initially `(-1, 0, 0)`. -/
def scanStep (total : ℕ × ℕ → ℚ) (acc : ℚ × ℕ × ℕ) (p : ℕ × ℕ) : ℚ × ℕ × ℕ :=
  if acc.1 < total p then (total p, p.1, p.2) else acc

/-- The corner positions visited by the scan loops, in row-major order
(`y` outer, `x` inner), stepping by the fixed stride 4 from 0 while the
coordinate stays at most `xMax` (resp. `yMax`). -/
def candidates (xMax yMax : ℕ) : List (ℕ × ℕ) :=
  (List.range (yMax / 4 + 1)).bind fun j =>
    (List.range (xMax / 4 + 1)).map fun i => (4 * i, 4 * j)

/-- Crop size rule of `findCoBrightestROI` as `(cropW, cropH)`: start with
`cropW = w`, `cropH = floor(w / targetAspectRatio)`; if `cropH > h`,
instead `cropH = h`, `cropW = floor(h * targetAspectRatio)`. -/
def cropDims (w h : ℕ) (targetAspectRatio : ℚ) : ℕ × ℕ :=
  let cropHRaw := (⌊(w : ℚ) / targetAspectRatio⌋).toNat
  if h < cropHRaw then ((⌊(h : ℚ) * targetAspectRatio⌋).toNat, h)
  else (w, cropHRaw)

/-- Combined brightness `sum1 + sum2` of the two channels at corner `p`. -/
def totalAt (integral1 integral2 : ℕ → ℚ) (width cropW cropH : ℕ)
    (p : ℕ × ℕ) : ℚ :=
  getRectSum integral1 width p.1 p.2 cropW cropH
    + getRectSum integral2 width p.1 p.2 cropW cropH

/-- The scan of `findCoBrightestROI`: effective height
`max(1, img1.height - clipBottom)`, crop size by `cropDims`, both integral
tables built with `img1`'s width and height (the source passes `w` and
`img1.height` for both channels), then the stride-4 fold starting from
`(maxBrightness, bestX, bestY) = (-1, 0, 0)`. -/
def roiBest (img1 img2 : ImageData) (targetAspectRatio : ℚ)
    (clipBottom : ℕ) : ℚ × ℕ × ℕ :=
  let w := img1.width
  let h := max 1 (img1.height - clipBottom)
  let cropW := (cropDims w h targetAspectRatio).1
  let cropH := (cropDims w h targetAspectRatio).2
  let integral1 := computeIntegralImage img1.data w img1.height
  let integral2 := computeIntegralImage img2.data w img1.height
  List.foldl (scanStep (totalAt integral1 integral2 w cropW cropH))
    (-1, 0, 0) (candidates (w - cropW) (h - cropH))

/-- `findCoBrightestROI` from the source: the best scanned corner together
with the crop size `{x: bestX, y: bestY, w: cropW, h: cropH}`. -/
def findCoBrightestROI (img1 img2 : ImageData) (targetAspectRatio : ℚ)
    (clipBottom : ℕ) : Rect :=
  { x := (roiBest img1 img2 targetAspectRatio clipBottom).2.1
    y := (roiBest img1 img2 targetAspectRatio clipBottom).2.2
    w := (cropDims img1.width (max 1 (img1.height - clipBottom)) targetAspectRatio).1
    h := (cropDims img1.width (max 1 (img1.height - clipBottom)) targetAspectRatio).2 }

/-- The `max` accumulator of `processChannel`: starts at 1 and takes the
maximum of `max(data[i], data[i+1], data[i+2])` over the first
`numPixels` RGBA quadruplets. -/
def channelMax (data : ℕ → ℕ) : ℕ → ℕ
  | 0 => 1
  | n + 1 => max (channelMax data n)
      (max (data (4 * n)) (max (data (4 * n + 1)) (data (4 * n + 2))))

/-- The scale factor of `processChannel`:
`randomShift = rand * randomness - randomness / 2` (with `rand` the
`Math.random()` draw), `stochastic = 1 + randomShift`,
`scale = targetIntensity * stochastic / maxVal`. -/
def stochasticScale (maxVal : ℕ) (targetIntensity randomness rand : ℚ) : ℚ :=
  targetIntensity * (1 + (rand * randomness - randomness / 2)) / (maxVal : ℚ)

/-- The normalization loop of `processChannel`: every R, G, B byte is
multiplied by the shared scale and clamped above by 255
(`Math.min(255, ...)`); alpha bytes are left unchanged. -/
def normalizePixels (data : ℕ → ℕ) (numPixels : ℕ)
    (targetIntensity randomness rand : ℚ) : ℕ → ℚ :=
  let scale := stochasticScale (channelMax data numPixels)
    targetIntensity randomness rand
  fun i => if i % 4 = 3 then (data i : ℚ) else min 255 ((data i : ℚ) * scale)

/-- The merge loop body of `processRow` at the quadruplet starting at flat
index `i`: if channel 1 is grayscale there
(`d1[i] = d1[i+1]` and `d1[i+1] = d1[i+2]`), output
`(R, G, B, A) = (d2[i], d1[i], 0, 255)`; otherwise the additive blend
`min(255, d1 + d2)` per component with `A = 255`. -/
def mergePixel (d1 d2 : ℕ → ℕ) (i : ℕ) : ℕ × ℕ × ℕ × ℕ :=
  if d1 i = d1 (i + 1) ∧ d1 (i + 1) = d1 (i + 2) then
    (d2 i, d1 i, 0, 255)
  else
    (min 255 (d1 i + d2 i), min 255 (d1 (i + 1) + d2 (i + 1)),
      min 255 (d1 (i + 2) + d2 (i + 2)), 255)

/-- The error vocabulary of the specification for the pipeline entry
point. The source code of `processRow` contains no throw site for either
kind; the embedding keeps the vocabulary so that claims about failure are
statable. -/
inductive PipelineError where
  | dimensionMismatch
  | degenerateGeometry
  deriving DecidableEq

/-- The data produced by one `processRow` invocation: the ROI, the two
normalized channels, the merged pixels, and the final canvas size
`(targetWidth * 3 + padding * 2) x targetHeight`. -/
structure RowResult where
  roi : Rect
  chan1 : ℕ → ℚ
  chan2 : ℕ → ℚ
  merged : ℕ → ℕ × ℕ × ℕ × ℕ
  finalWidth : ℕ
  finalHeight : ℕ

/-- `processRow` from the source. `resample` stands for the browser canvas
`drawImage` crop-and-resize (an external collaborator, not repository
code): it yields the `targetWidth x targetHeight` RGBA bytes read back by
`getImageData`. `store` stands for the `Uint8ClampedArray` byte store that
rounds and clamps a scaled value before the merge loop reads it back.
The source performs no dimension or geometry check: it computes
`ratio = targetWidth / targetHeight`, calls `findCoBrightestROI`,
normalizes both channels, merges, and always yields a result. -/
def processRow (resample : ImageData → Rect → ℕ → ℕ → (ℕ → ℕ))
    (store : ℚ → ℕ) (img1 img2 : ImageData) (config : ProcessingConfig)
    (rand1 rand2 : ℚ) : Except PipelineError RowResult :=
  let ratio := (config.targetWidth : ℚ) / (config.targetHeight : ℚ)
  let roi := findCoBrightestROI img1 img2 ratio config.clipBottom
  let numPixels := config.targetWidth * config.targetHeight
  let c1 := normalizePixels (resample img1 roi config.targetWidth config.targetHeight)
    numPixels config.targetIntensity config.randomness rand1
  let c2 := normalizePixels (resample img2 roi config.targetWidth config.targetHeight)
    numPixels config.targetIntensity config.randomness rand2
  Except.ok
    { roi := roi
      chan1 := c1
      chan2 := c2
      merged := mergePixel (fun i => store (c1 i)) (fun i => store (c2 i))
      finalWidth := config.targetWidth * 3 + config.padding * 2
      finalHeight := config.targetHeight }

theorem scanFold_best (total : ℕ × ℕ → ℚ) (l : List (ℕ × ℕ)) :
    ∀ acc : ℚ × ℕ × ℕ,
      (List.foldl (scanStep total) acc l).2 = acc.2 ∨
        (List.foldl (scanStep total) acc l).2 ∈ l := by
  induction l with
  | nil => intro acc; left; rfl
  | cons p rest ih =>
      intro acc
      rw [List.foldl_cons]
      rcases ih (scanStep total acc p) with h | h
      · rw [h]
        unfold scanStep
        by_cases hc : acc.1 < total p
        · rw [if_pos hc]
          right
          exact List.mem_cons_self _ _
        · rw [if_neg hc]
          left
          rfl
      · right
        exact List.mem_cons_of_mem _ h

theorem candidates_spec (xMax yMax : ℕ) (p : ℕ × ℕ)
    (hp : p ∈ candidates xMax yMax) :
    p.1 % 4 = 0 ∧ p.2 % 4 = 0 ∧ p.1 ≤ xMax ∧ p.2 ≤ yMax := by
  unfold candidates at hp
  rw [List.mem_bind] at hp
  obtain ⟨j, hj, hpj⟩ := hp
  rw [List.mem_map] at hpj
  obtain ⟨i, hi, hip⟩ := hpj
  rw [List.mem_range] at hj hi
  have hi4 : 4 * i ≤ xMax := by
    have : i ≤ xMax / 4 := by omega
    have := (Nat.le_div_iff_mul_le (by norm_num : 0 < 4)).1 this
    omega
  have hj4 : 4 * j ≤ yMax := by
    have : j ≤ yMax / 4 := by omega
    have := (Nat.le_div_iff_mul_le (by norm_num : 0 < 4)).1 this
    omega
  subst hip
  refine ⟨?_, ?_, hi4, hj4⟩ <;> omega

theorem cropDims_snd_le (w h : ℕ) (r : ℚ) : (cropDims w h r).2 ≤ h := by
  unfold cropDims
  by_cases hc : h < (⌊(w : ℚ) / r⌋).toNat
  · rw [if_pos hc]
  · rw [if_neg hc]
    omega

theorem cropDims_fst_le (w h : ℕ) (r : ℚ) (hr : 0 < r) :
    (cropDims w h r).1 ≤ w := by
  unfold cropDims
  by_cases hc : h < (⌊(w : ℚ) / r⌋).toNat
  · rw [if_pos hc]
    show (⌊(h : ℚ) * r⌋).toNat ≤ w
    have hfloor : ((h : ℤ) : ℚ) < (w : ℚ) / r := by
      have h1 : (h : ℤ) < ⌊(w : ℚ) / r⌋ := Int.lt_toNat.1 hc
      have h2 : ((h : ℤ) : ℚ) < (⌊(w : ℚ) / r⌋ : ℚ) := by exact_mod_cast h1
      exact lt_of_lt_of_le h2 (Int.floor_le _)
    have hmul : (h : ℚ) * r < w := by
      rw [lt_div_iff hr] at hfloor
      exact_mod_cast hfloor
    have hfl : ⌊(h : ℚ) * r⌋ < (w : ℤ) := by
      apply Int.floor_lt.2
      push_cast
      exact hmul
    exact Int.toNat_le.2 (le_of_lt hfl)
  · rw [if_neg hc]

/-- C10: the scan visits only corners whose coordinates step by the fixed
stride 4 from 0, and the fallback best position is `(0, 0)`, so the `x`
and `y` of the rectangle returned by `findCoBrightestROI` are always
multiples of 4. -/
theorem roi_stride_aligned (img1 img2 : ImageData) (targetAspectRatio : ℚ)
    (clipBottom : ℕ) :
    (findCoBrightestROI img1 img2 targetAspectRatio clipBottom).x % 4 = 0 ∧
      (findCoBrightestROI img1 img2 targetAspectRatio clipBottom).y % 4 = 0 := by
  have hmem := scanFold_best
    (totalAt (computeIntegralImage img1.data img1.width img1.height)
      (computeIntegralImage img2.data img1.width img1.height) img1.width
      (cropDims img1.width (max 1 (img1.height - clipBottom)) targetAspectRatio).1
      (cropDims img1.width (max 1 (img1.height - clipBottom)) targetAspectRatio).2)
    (candidates
      (img1.width -
        (cropDims img1.width (max 1 (img1.height - clipBottom)) targetAspectRatio).1)
      (max 1 (img1.height - clipBottom) -
        (cropDims img1.width (max 1 (img1.height - clipBottom)) targetAspectRatio).2))
    (-1, 0, 0)
  have hxy : (findCoBrightestROI img1 img2 targetAspectRatio clipBottom).x
      = (roiBest img1 img2 targetAspectRatio clipBottom).2.1 := rfl
  have hxy2 : (findCoBrightestROI img1 img2 targetAspectRatio clipBottom).y
      = (roiBest img1 img2 targetAspectRatio clipBottom).2.2 := rfl
  have hb : roiBest img1 img2 targetAspectRatio clipBottom
      = List.foldl (scanStep
          (totalAt (computeIntegralImage img1.data img1.width img1.height)
            (computeIntegralImage img2.data img1.width img1.height) img1.width
            (cropDims img1.width (max 1 (img1.height - clipBottom)) targetAspectRatio).1
            (cropDims img1.width (max 1 (img1.height - clipBottom)) targetAspectRatio).2))
        (-1, 0, 0)
        (candidates
          (img1.width -
            (cropDims img1.width (max 1 (img1.height - clipBottom)) targetAspectRatio).1)
          (max 1 (img1.height - clipBottom) -
            (cropDims img1.width (max 1 (img1.height - clipBottom)) targetAspectRatio).2)) := rfl
  rw [hxy, hxy2, hb]
  rcases hmem with h | h
  · rw [h]
    exact ⟨rfl, rfl⟩
  · have := candidates_spec _ _ _ h
    exact ⟨this.1, this.2.1⟩

theorem roiBest_pos (img1 img2 : ImageData) (targetAspectRatio : ℚ)
    (clipBottom : ℕ) :
    (roiBest img1 img2 targetAspectRatio clipBottom).2 = (0, 0) ∨
      (roiBest img1 img2 targetAspectRatio clipBottom).2 ∈ candidates
        (img1.width -
          (cropDims img1.width (max 1 (img1.height - clipBottom)) targetAspectRatio).1)
        (max 1 (img1.height - clipBottom) -
          (cropDims img1.width (max 1 (img1.height - clipBottom)) targetAspectRatio).2) :=
  scanFold_best _ _ _

/-- C4: for every pair of inputs, aspect ratio `r > 0` and `clipBottom`,
the rectangle returned by `findCoBrightestROI` satisfies `x >= 0`,
`y >= 0`, `x + w <= img1.width` and
`y + h <= max 1 (img1.height - clipBottom)`. -/
theorem roi_containment (img1 img2 : ImageData) (targetAspectRatio : ℚ)
    (clipBottom : ℕ) (hr : 0 < targetAspectRatio) :
    0 ≤ (findCoBrightestROI img1 img2 targetAspectRatio clipBottom).x ∧
    0 ≤ (findCoBrightestROI img1 img2 targetAspectRatio clipBottom).y ∧
    (findCoBrightestROI img1 img2 targetAspectRatio clipBottom).x
        + (findCoBrightestROI img1 img2 targetAspectRatio clipBottom).w
      ≤ img1.width ∧
    (findCoBrightestROI img1 img2 targetAspectRatio clipBottom).y
        + (findCoBrightestROI img1 img2 targetAspectRatio clipBottom).h
      ≤ max 1 (img1.height - clipBottom) := by
  have hwle := cropDims_fst_le img1.width (max 1 (img1.height - clipBottom))
    targetAspectRatio hr
  have hhle := cropDims_snd_le img1.width (max 1 (img1.height - clipBottom))
    targetAspectRatio
  have hx : (findCoBrightestROI img1 img2 targetAspectRatio clipBottom).x
      = (roiBest img1 img2 targetAspectRatio clipBottom).2.1 := rfl
  have hy : (findCoBrightestROI img1 img2 targetAspectRatio clipBottom).y
      = (roiBest img1 img2 targetAspectRatio clipBottom).2.2 := rfl
  have hwd : (findCoBrightestROI img1 img2 targetAspectRatio clipBottom).w
      = (cropDims img1.width (max 1 (img1.height - clipBottom)) targetAspectRatio).1 :=
    rfl
  have hhd : (findCoBrightestROI img1 img2 targetAspectRatio clipBottom).h
      = (cropDims img1.width (max 1 (img1.height - clipBottom)) targetAspectRatio).2 :=
    rfl
  refine ⟨Nat.zero_le _, Nat.zero_le _, ?_, ?_⟩
  · rw [hx, hwd]
    rcases roiBest_pos img1 img2 targetAspectRatio clipBottom with h0 | hmem
    · have : (roiBest img1 img2 targetAspectRatio clipBottom).2.1 = 0 := by rw [h0]
      omega
    · have := candidates_spec _ _ _ hmem
      omega
  · rw [hy, hhd]
    rcases roiBest_pos img1 img2 targetAspectRatio clipBottom with h0 | hmem
    · have : (roiBest img1 img2 targetAspectRatio clipBottom).2.2 = 0 := by rw [h0]
      omega
    · have := candidates_spec _ _ _ hmem
      omega

/-- Witness for `roi_containment` at concrete inputs. -/
theorem roi_containment_witness :
    0 ≤ (findCoBrightestROI ⟨4, 4, fun _ => 0⟩ ⟨4, 4, fun _ => 0⟩ 2 0).x ∧
    0 ≤ (findCoBrightestROI ⟨4, 4, fun _ => 0⟩ ⟨4, 4, fun _ => 0⟩ 2 0).y ∧
    (findCoBrightestROI ⟨4, 4, fun _ => 0⟩ ⟨4, 4, fun _ => 0⟩ 2 0).x
        + (findCoBrightestROI ⟨4, 4, fun _ => 0⟩ ⟨4, 4, fun _ => 0⟩ 2 0).w
      ≤ (⟨4, 4, fun _ => 0⟩ : ImageData).width ∧
    (findCoBrightestROI ⟨4, 4, fun _ => 0⟩ ⟨4, 4, fun _ => 0⟩ 2 0).y
        + (findCoBrightestROI ⟨4, 4, fun _ => 0⟩ ⟨4, 4, fun _ => 0⟩ 2 0).h
      ≤ max 1 ((⟨4, 4, fun _ => 0⟩ : ImageData).height - 0) :=
  roi_containment ⟨4, 4, fun _ => 0⟩ ⟨4, 4, fun _ => 0⟩ 2 0 two_pos

/-- C9: the rectangle returned by `findCoBrightestROI` does not depend on
the second raster's declared width and height: both integral tables are
built with the first raster's geometry, so two second inputs with the same
pixel buffer and different declared dimensions yield the same ROI. -/
theorem roi_ignores_second_dims (img1 img2 img2b : ImageData)
    (targetAspectRatio : ℚ) (clipBottom : ℕ) (hdata : img2.data = img2b.data) :
    findCoBrightestROI img1 img2 targetAspectRatio clipBottom
      = findCoBrightestROI img1 img2b targetAspectRatio clipBottom := by
  unfold findCoBrightestROI roiBest
  rw [hdata]

/-- Witness for `roi_ignores_second_dims`: the two second rasters declare
different dimensions but share the pixel buffer. -/
theorem roi_ignores_second_dims_witness :
    findCoBrightestROI ⟨2, 2, fun _ => 0⟩ ⟨2, 2, fun i => i⟩ 1 0
      = findCoBrightestROI ⟨2, 2, fun _ => 0⟩ ⟨7, 3, fun i => i⟩ 1 0 :=
  roi_ignores_second_dims ⟨2, 2, fun _ => 0⟩ ⟨2, 2, fun i => i⟩ ⟨7, 3, fun i => i⟩
    1 0 rfl

theorem cropDims_aspect (w h : ℕ) (r : ℚ) (hr : 0 < r) :
    |((cropDims w h r).1 : ℚ) - ((cropDims w h r).2 : ℚ) * r| < max 1 r := by
  unfold cropDims
  by_cases hc : h < (⌊(w : ℚ) / r⌋).toNat
  · rw [if_pos hc]
    show |((⌊(h : ℚ) * r⌋.toNat : ℕ) : ℚ) - (h : ℚ) * r| < max 1 r
    have h0 : (0 : ℤ) ≤ ⌊(h : ℚ) * r⌋ :=
      Int.floor_nonneg.2 (by positivity)
    have hcast : ((⌊(h : ℚ) * r⌋.toNat : ℕ) : ℚ) = (⌊(h : ℚ) * r⌋ : ℚ) := by
      exact_mod_cast congrArg (fun z : ℤ => (z : ℚ)) (Int.toNat_of_nonneg h0)
    rw [hcast, abs_sub_comm, Int.self_sub_floor]
    exact lt_of_lt_of_le
      (by rw [abs_of_nonneg (Int.fract_nonneg _)]; exact Int.fract_lt_one _)
      (le_max_left 1 r)
  · rw [if_neg hc]
    show |((w : ℕ) : ℚ) - ((⌊(w : ℚ) / r⌋.toNat : ℕ) : ℚ) * r| < max 1 r
    have h0 : (0 : ℤ) ≤ ⌊(w : ℚ) / r⌋ :=
      Int.floor_nonneg.2 (by positivity)
    have hcast : ((⌊(w : ℚ) / r⌋.toNat : ℕ) : ℚ) = (⌊(w : ℚ) / r⌋ : ℚ) := by
      exact_mod_cast congrArg (fun z : ℤ => (z : ℚ)) (Int.toNat_of_nonneg h0)
    have hrne : r ≠ 0 := ne_of_gt hr
    have hw : (w : ℚ) = (w : ℚ) / r * r := (div_mul_cancel₀ _ hrne).symm
    rw [hcast]
    calc |(w : ℚ) - (⌊(w : ℚ) / r⌋ : ℚ) * r|
        = |((w : ℚ) / r - (⌊(w : ℚ) / r⌋ : ℚ)) * r| := by
          rw [sub_mul]; rw [← hw]
      _ = Int.fract ((w : ℚ) / r) * r := by
          rw [abs_mul, abs_of_pos hr, ← Int.self_sub_floor,
            abs_of_nonneg (Int.fract_nonneg _), Int.self_sub_floor]
      _ < 1 * r := by
          exact mul_lt_mul_of_pos_right (Int.fract_lt_one _) hr
      _ = r := one_mul r
      _ ≤ max 1 r := le_max_right 1 r

/-- C8 (amended): the crop rule keeps the aspect ratio within a tolerance
of one pixel in the rounded dimension, which on the returned rectangle is
the bound `|w - h * r| < max 1 r` (so at most one pixel only when
`r <= 1`; for `r > 1` the width error can reach `r`). -/
theorem roi_aspect_tolerance (img1 img2 : ImageData) (targetAspectRatio : ℚ)
    (clipBottom : ℕ) (hr : 0 < targetAspectRatio) :
    |((findCoBrightestROI img1 img2 targetAspectRatio clipBottom).w : ℚ)
        - ((findCoBrightestROI img1 img2 targetAspectRatio clipBottom).h : ℚ)
          * targetAspectRatio|
      < max 1 targetAspectRatio :=
  cropDims_aspect img1.width (max 1 (img1.height - clipBottom))
    targetAspectRatio hr

/-- Witness for `roi_aspect_tolerance` at concrete inputs. -/
theorem roi_aspect_tolerance_witness :
    |((findCoBrightestROI ⟨4, 4, fun _ => 0⟩ ⟨4, 4, fun _ => 0⟩ 2 0).w : ℚ)
        - ((findCoBrightestROI ⟨4, 4, fun _ => 0⟩ ⟨4, 4, fun _ => 0⟩ 2 0).h : ℚ) * 2|
      < max 1 2 :=
  roi_aspect_tolerance ⟨4, 4, fun _ => 0⟩ ⟨4, 4, fun _ => 0⟩ 2 0 two_pos

/-- C8 counterexample: on a 5x10 raster with target ratio 3 the crop rule
returns `w = 5`, `h = 1`, and `|5 - 1 * 3| = 2 > 1`, refuting the claimed
one-pixel tolerance `|w - h * r| <= 1`. -/
theorem roi_aspect_one_pixel_counterexample :
    ¬ (|((findCoBrightestROI ⟨5, 10, fun _ => 0⟩ ⟨5, 10, fun _ => 0⟩ 3 0).w : ℚ)
        - ((findCoBrightestROI ⟨5, 10, fun _ => 0⟩ ⟨5, 10, fun _ => 0⟩ 3 0).h : ℚ)
          * 3| ≤ 1) := by
  have hw : (findCoBrightestROI ⟨5, 10, fun _ => 0⟩ ⟨5, 10, fun _ => 0⟩ 3 0).w
      = (cropDims 5 (max 1 (10 - 0)) 3).1 := rfl
  have hh : (findCoBrightestROI ⟨5, 10, fun _ => 0⟩ ⟨5, 10, fun _ => 0⟩ 3 0).h
      = (cropDims 5 (max 1 (10 - 0)) 3).2 := rfl
  have hfloor : ⌊(5 : ℚ) / 3⌋ = 1 := by norm_num [Int.floor_eq_iff]
  have hcrop : cropDims 5 (max 1 (10 - 0)) 3 = (5, 1) := by
    unfold cropDims
    norm_num [hfloor]
  rw [hw, hh, hcrop]
  norm_num

/-- C5: the merge step per pixel: when channel 1's R, G, B are pairwise
equal the output is `(R, G, B, A) = (channel2.R, channel1.R, 0, 255)`,
otherwise each of R, G, B is `min(255, channel1 + channel2)` with
`A = 255`. -/
theorem merge_rule (d1 d2 : ℕ → ℕ) (i : ℕ) :
    ((d1 i = d1 (i + 1) ∧ d1 (i + 1) = d1 (i + 2)) →
      mergePixel d1 d2 i = (d2 i, d1 i, 0, 255)) ∧
    (¬ (d1 i = d1 (i + 1) ∧ d1 (i + 1) = d1 (i + 2)) →
      mergePixel d1 d2 i
        = (min 255 (d1 i + d2 i), min 255 (d1 (i + 1) + d2 (i + 1)),
            min 255 (d1 (i + 2) + d2 (i + 2)), 255)) := by
  constructor
  · intro h
    unfold mergePixel
    rw [if_pos h]
  · intro h
    unfold mergePixel
    rw [if_neg h]

/-- Witness for `merge_rule`: one grayscale and one colored pixel. -/
theorem merge_rule_witness :
    mergePixel (fun _ => 5) (fun _ => 7) 0 = (7, 5, 0, 255) ∧
    mergePixel (fun k => k) (fun _ => 7) 0
      = (min 255 (0 + 7), min 255 (1 + 7), min 255 (2 + 7), 255) :=
  ⟨(merge_rule (fun _ => 5) (fun _ => 7) 0).1 ⟨rfl, rfl⟩,
    (merge_rule (fun k => k) (fun _ => 7) 0).2 (by decide)⟩

theorem channelMax_ge_one (data : ℕ → ℕ) (n : ℕ) : 1 ≤ channelMax data n := by
  induction n with
  | zero => exact le_refl 1
  | succ k ih => exact le_trans ih (le_max_left _ _)

/-- C6: the `max` accumulator is floored at 1 (so the scale computation
never divides by zero), and under the configured domain
(`targetIntensity >= 0`, `0 <= randomness <= 2`, `rand >= 0`) every R, G,
B value emitted by the normalization lies in `[0, 255]`, even when the
scale exceeds 1. -/
theorem normalizer_range (data : ℕ → ℕ) (numPixels : ℕ)
    (targetIntensity randomness rand : ℚ) (hti : 0 ≤ targetIntensity)
    (hr0 : 0 ≤ randomness) (hr2 : randomness ≤ 2) (hrand : 0 ≤ rand) :
    1 ≤ channelMax data numPixels ∧
    ∀ i, i % 4 ≠ 3 →
      0 ≤ normalizePixels data numPixels targetIntensity randomness rand i ∧
      normalizePixels data numPixels targetIntensity randomness rand i ≤ 255 := by
  refine ⟨channelMax_ge_one data numPixels, fun i hi => ?_⟩
  have hscale : 0 ≤ stochasticScale (channelMax data numPixels)
      targetIntensity randomness rand := by
    unfold stochasticScale
    apply div_nonneg
    · apply mul_nonneg hti
      have := mul_nonneg hrand hr0
      linarith
    · exact Nat.cast_nonneg _
  show 0 ≤ normalizePixels data numPixels targetIntensity randomness rand i ∧
    normalizePixels data numPixels targetIntensity randomness rand i ≤ 255
  unfold normalizePixels
  rw [if_neg hi]
  constructor
  · exact le_min (by norm_num) (mul_nonneg (Nat.cast_nonneg _) hscale)
  · exact min_le_left _ _

/-- Witness for `normalizer_range` at a concrete buffer and config. -/
theorem normalizer_range_witness :
    1 ≤ channelMax (fun i => 100 + i) 2 ∧
    (0 ≤ normalizePixels (fun i => 100 + i) 2 200 (1/20) (1/2) 0 ∧
      normalizePixels (fun i => 100 + i) 2 200 (1/20) (1/2) 0 ≤ 255) :=
  ⟨(normalizer_range (fun i => 100 + i) 2 200 (1/20) (1/2) (by norm_num)
      (by norm_num) (by norm_num) (by norm_num)).1,
    (normalizer_range (fun i => 100 + i) 2 200 (1/20) (1/2) (by norm_num)
      (by norm_num) (by norm_num) (by norm_num)).2 0 (by decide)⟩

theorem stochasticScale_zero (maxVal : ℕ) (targetIntensity rand : ℚ) :
    stochasticScale maxVal targetIntensity 0 rand
      = targetIntensity / (maxVal : ℚ) := by
  unfold stochasticScale
  rw [mul_zero, zero_div, sub_zero, add_zero, mul_one]

theorem normalizePixels_randomness_zero (data : ℕ → ℕ) (numPixels : ℕ)
    (targetIntensity rand1 rand2 : ℚ) :
    normalizePixels data numPixels targetIntensity 0 rand1
      = normalizePixels data numPixels targetIntensity 0 rand2 := by
  funext i
  simp only [normalizePixels, stochasticScale_zero]

theorem processRow_roi_rand_free
    (resample : ImageData → Rect → ℕ → ℕ → (ℕ → ℕ)) (store : ℚ → ℕ)
    (img1 img2 : ImageData) (config : ProcessingConfig) (a b c d : ℚ) :
    Except.map RowResult.roi (processRow resample store img1 img2 config a b)
      = Except.map RowResult.roi (processRow resample store img1 img2 config c d) := by
  simp only [processRow, Except.map]

/-- C7: with `randomness = 0` the normalization output is the same for any
two random draws (bit-identical re-runs), and the ROI component of
`processRow` never depends on the random draws. -/
theorem pipeline_determinism :
    (∀ (data : ℕ → ℕ) (numPixels : ℕ) (targetIntensity rand1 rand2 : ℚ),
      normalizePixels data numPixels targetIntensity 0 rand1
        = normalizePixels data numPixels targetIntensity 0 rand2) ∧
    (∀ (resample : ImageData → Rect → ℕ → ℕ → (ℕ → ℕ)) (store : ℚ → ℕ)
        (img1 img2 : ImageData) (config : ProcessingConfig) (a b c d : ℚ),
      Except.map RowResult.roi (processRow resample store img1 img2 config a b)
        = Except.map RowResult.roi (processRow resample store img1 img2 config c d)) :=
  ⟨normalizePixels_randomness_zero, processRow_roi_rand_free⟩

/-- C1 counterexample: two input rasters whose widths (and heights)
differ; `processRow` raises no `DimensionMismatchError` and produces an
output for that invocation. -/
theorem dimension_mismatch_counterexample :
    (⟨4, 4, fun _ => 0⟩ : ImageData).width ≠ (⟨8, 8, fun _ => 0⟩ : ImageData).width ∧
    (processRow (fun _ _ _ _ _ => 0) (fun _ => 0) ⟨4, 4, fun _ => 0⟩
      ⟨8, 8, fun _ => 0⟩ defaultConfig 0 0).isOk = true :=
  ⟨by decide, rfl⟩

/-- C1 (amended): `processRow` performs no dimension check: for every pair
of input rasters, equal-sized or not, it raises no error and produces an
output raster. -/
theorem processRow_no_dimension_check
    (resample : ImageData → Rect → ℕ → ℕ → (ℕ → ℕ)) (store : ℚ → ℕ)
    (img1 img2 : ImageData) (config : ProcessingConfig) (rand1 rand2 : ℚ) :
    (processRow resample store img1 img2 config rand1 rand2).isOk = true := rfl

/-- C2 counterexample: `clipBottom = 25 >= height = 10`, yet `processRow`
raises no `DegenerateGeometryError` and produces an output. -/
theorem degenerate_geometry_counterexample :
    (⟨10, 10, fun _ => 0⟩ : ImageData).height ≤ defaultConfig.clipBottom ∧
    (processRow (fun _ _ _ _ _ => 0) (fun _ => 0) ⟨10, 10, fun _ => 0⟩
      ⟨10, 10, fun _ => 0⟩ defaultConfig 0 0).isOk = true :=
  ⟨by decide, rfl⟩

/-- C2 (amended): when `clipBottom >= height` no error is raised: the
effective height is clamped to 1 (`max(1, height - clipBottom)`), the
returned ROI has height at most 1, and `processRow` still produces an
output. -/
theorem clipBottom_degenerate_no_error
    (resample : ImageData → Rect → ℕ → ℕ → (ℕ → ℕ)) (store : ℚ → ℕ)
    (img1 img2 : ImageData) (config : ProcessingConfig) (rand1 rand2 : ℚ)
    (hclip : img1.height ≤ config.clipBottom) :
    (processRow resample store img1 img2 config rand1 rand2).isOk = true ∧
    (findCoBrightestROI img1 img2
      ((config.targetWidth : ℚ) / (config.targetHeight : ℚ)) config.clipBottom).h
      ≤ 1 := by
  refine ⟨rfl, ?_⟩
  have h1 : max 1 (img1.height - config.clipBottom) = 1 := by omega
  have hd : (findCoBrightestROI img1 img2
      ((config.targetWidth : ℚ) / (config.targetHeight : ℚ)) config.clipBottom).h
      = (cropDims img1.width (max 1 (img1.height - config.clipBottom))
          ((config.targetWidth : ℚ) / (config.targetHeight : ℚ))).2 := rfl
  rw [hd, h1]
  exact cropDims_snd_le _ _ _

/-- Witness for `clipBottom_degenerate_no_error` at concrete inputs. -/
theorem clipBottom_degenerate_no_error_witness :
    (processRow (fun _ _ _ _ _ => 0) (fun _ => 0) ⟨10, 10, fun _ => 2⟩
      ⟨10, 10, fun _ => 2⟩ defaultConfig 0 0).isOk = true ∧
    (findCoBrightestROI ⟨10, 10, fun _ => 2⟩ ⟨10, 10, fun _ => 2⟩
      ((defaultConfig.targetWidth : ℚ) / (defaultConfig.targetHeight : ℚ))
      defaultConfig.clipBottom).h ≤ 1 :=
  clipBottom_degenerate_no_error (fun _ _ _ _ _ => 0) (fun _ => 0)
    ⟨10, 10, fun _ => 2⟩ ⟨10, 10, fun _ => 2⟩ defaultConfig 0 0 (by decide)
